import Mathlib

/-!
Verification of the rainbow-bridge-client transfer state machine.

The development shallowly embeds the two protocol variants of the client:

* the natural-ether → Aurora module (`Ether` namespace): `lock`, `checkLock`,
  `checkSync`, `recover`, and the dispatchers `act` / `checkStatus`;
* the natural-nep141 → Aurora module (`Nep` namespace): `lock`, `lockNear`,
  `checkLock`, `findAllTransfers`, `recover`, and its dispatchers.

Network and wallet collaborators (chain RPC, the replacement-transaction
finder, url parameters, the indexer) are modelled as explicit environment
records; each operation is a pure function from an environment and a transfer
record to `Except Err Transfer`, where `Except.error` models a thrown
JavaScript exception.
-/

set_option autoImplicit false

namespace RainbowBridge

/-- Transfer statuses from the client status module. -/
inductive Status
  | actionNeeded
  | inProgress
  | complete
  | failed
  deriving DecidableEq

/-- Completed steps of a transfer; `Option Step` models `null | LOCK | SYNC | MINT`. -/
inductive Step
  | lock
  | sync
  | mint
  deriving DecidableEq

/-- Rank of a completed step in the order None < Lock < Sync < Mint. -/
def stepRank : Option Step → Nat
  | none => 0
  | some Step.lock => 1
  | some Step.sync => 2
  | some Step.mint => 3

/-- Errors thrown (not recorded) by the state machine. -/
inductive Err
  | nilAccess
  | unrecognizedStep (msg : String)
  | eventNotFound (msg : String)
  | wrongDestination (msg : String)
  | malformedMessage (msg : String)
  | wrongNetwork (msg : String)
  | rethrown (msg : String)
  deriving DecidableEq

/-- Helper for `jsSplit`: walk the characters, cutting at each separator. -/
def jsSplitAux (sep : Char) : List Char → List Char → List String
  | [], acc => [String.mk acc.reverse]
  | c :: cs, acc =>
    if c = sep then String.mk acc.reverse :: jsSplitAux sep cs []
    else jsSplitAux sep cs (c :: acc)

/-- JavaScript `String.split` with a single-character separator. -/
def jsSplit (sep : Char) (s : String) : List String := jsSplitAux sep s.toList []

/-- String prefix test, by character lists. -/
def strStartsWith (s pre : String) : Bool :=
  decide (s.toList.take pre.toList.length = pre.toList)

/-- Character membership test, by character lists. -/
def strContainsChar (s : String) (c : Char) : Bool := s.toList.any (fun d => decide (d = c))

/-- An ethereum transaction receipt, with the fields the client reads. -/
structure Receipt where
  blockNumber : Int
  transactionHash : String
  status : Bool
  deriving DecidableEq

/-- The `ethCache` kept on a transfer while its lock tx is unconfirmed. -/
structure EthCache where
  fromAddr : String
  toAddr : String
  nonce : Nat
  data : String
  safeReorgHeight : Int
  deriving DecidableEq

/-- A `Deposited` event from the ether custodian contract. -/
structure DepositedEvent where
  transactionHash : String
  sender : String
  recipient : String
  amount : String
  deriving DecidableEq

/-- Outcome of `findReplacementTx` from the find-replacement-tx library. -/
inductive FinderRes
  | found (hash : String)
  | notYetFound
  | searchErr (msg : String)
  | validationErr (msg : String)
  | thrown (msg : String)
  deriving DecidableEq

/-- The pending transaction returned by `getTransaction` after broadcast. -/
structure PendingTx where
  fromAddr : String
  toAddr : String
  nonce : Nat
  input : String
  deriving DecidableEq

namespace Ether

/-- Transfer record of the natural-ether → Aurora module. -/
structure Transfer where
  id : String
  status : Status
  completedStep : Option Step
  amount : String
  decimals : Nat
  symbol : String
  sourceToken : Option String
  sourceTokenName : String
  destinationTokenName : String
  sender : String
  recipient : String
  completedConfirmations : Int
  neededConfirmations : Int
  lockHashes : List String
  lockReceipts : List Receipt
  mintHashes : List String
  errors : List String
  ethCache : Option EthCache
  deriving DecidableEq

/-- Chain and oracle state visible to the ether-variant operations. -/
structure Chain where
  ethNetwork : String
  ethNetworkId : String
  getTransactionReceipt : String → Option Receipt
  findReplacementTx : EthCache → FinderRes
  getRevertReason : String → Except String String
  syncedHeight : Int
  findProof : String → String
  isUsedProof : String → Bool
  pastDepositedEvents : Int → List DepositedEvent
  auroraEvmAccount : String
  blockNumber : Int
  broadcastLock : Except String String
  pendingTx : String → PendingTx

/-- Environment of an ether-variant invocation: chain state plus the clock. -/
structure Env where
  chain : Chain
  nowIso : String

/-- The `transferDraft` of the ether module: default values of a fresh record. -/
def transferDraft : Transfer where
  id := ""
  status := Status.actionNeeded
  completedStep := none
  amount := ""
  decimals := 0
  symbol := ""
  sourceToken := none
  sourceTokenName := ""
  destinationTokenName := ""
  sender := ""
  recipient := ""
  completedConfirmations := 0
  neededConfirmations := 20
  lockHashes := []
  lockReceipts := []
  mintHashes := []
  errors := []
  ethCache := none

/-- `lock`: broadcast the lock transaction and cache replacement-search data. -/
def lock (env : Env) (t : Transfer) : Except Err Transfer :=
  if env.chain.ethNetwork ≠ env.chain.ethNetworkId then
    Except.error (Err.wrongNetwork "Wrong eth network for checkLock")
  else
    let safeReorgHeight := env.chain.blockNumber - 20
    match env.chain.broadcastLock with
    | Except.error m => Except.error (Err.rethrown m)
    | Except.ok lockHash =>
      let pendingLockTx := env.chain.pendingTx lockHash
      Except.ok { t with
        status := Status.inProgress
        ethCache := some {
          fromAddr := pendingLockTx.fromAddr
          toAddr := pendingLockTx.toAddr
          nonce := pendingLockTx.nonce
          data := pendingLockTx.input
          safeReorgHeight := safeReorgHeight }
        lockHashes := t.lockHashes ++ [lockHash] }

/-- Shared tail of `checkLock` once a receipt (original or replacement) is in
hand: handle revert, record a replacement hash, append the receipt and set
`completedStep = LOCK`. -/
def finishLock (env : Env) (t : Transfer) (lockHash : String) (lockReceipt : Receipt) :
    Except Err Transfer :=
  if lockReceipt.status = false then
    let error := match env.chain.getRevertReason lockHash with
      | Except.ok reason => reason
      | Except.error m =>
          "Could not determine why transaction failed; encountered error: " ++ m
    Except.ok { t with
      status := Status.failed
      errors := t.errors ++ [error]
      lockReceipts := t.lockReceipts ++ [lockReceipt] }
  else
    let t1 := if lockReceipt.transactionHash ≠ lockHash then
        { t with lockHashes := t.lockHashes ++ [lockReceipt.transactionHash] }
      else t
    Except.ok { t1 with
      status := Status.inProgress
      completedStep := some Step.lock
      lockReceipts := t1.lockReceipts ++ [lockReceipt] }

/-- `checkLock`: poll the receipt of the most recent lock hash, falling back to
the replacement-transaction finder when no receipt exists. -/
def checkLock (env : Env) (t : Transfer) : Except Err Transfer :=
  if env.chain.ethNetwork ≠ env.chain.ethNetworkId then Except.ok t
  else
    match t.lockHashes.getLast? with
    | none => Except.error Err.nilAccess
    | some lockHash =>
      match env.chain.getTransactionReceipt lockHash with
      | some lockReceipt => finishLock env t lockHash lockReceipt
      | none =>
        match t.ethCache with
        | none => Except.error Err.nilAccess
        | some cache =>
          match env.chain.findReplacementTx cache with
          | FinderRes.notYetFound => Except.ok t
          | FinderRes.searchErr m =>
            Except.ok { t with errors := t.errors ++ [m], status := Status.failed }
          | FinderRes.validationErr m =>
            Except.ok { t with errors := t.errors ++ [m], status := Status.failed }
          | FinderRes.thrown m => Except.error (Err.rethrown m)
          | FinderRes.found h =>
            match env.chain.getTransactionReceipt h with
            | none => Except.ok t
            | some lockReceipt => finishLock env t lockHash lockReceipt

/-- `checkSync`: recompute confirmations from the light-client height and
detect relayer finalization through the anti-replay proof registry. -/
def checkSync (env : Env) (t : Transfer) : Except Err Transfer :=
  match t.lockReceipts.getLast? with
  | none => Except.error Err.nilAccess
  | some lockReceipt =>
    let eventEmittedAt := lockReceipt.blockNumber
    let syncedTo := env.chain.syncedHeight
    let completedConfirmations := max 0 (syncedTo - eventEmittedAt)
    let progressRecord : Transfer :=
      { t with completedConfirmations := completedConfirmations, status := Status.inProgress }
    if completedConfirmations > t.neededConfirmations then
      if env.chain.isUsedProof (env.chain.findProof lockReceipt.transactionHash) then
        Except.ok { t with
          completedStep := some Step.mint
          completedConfirmations := completedConfirmations
          status := Status.complete
          errors := t.errors ++ ["Transfer already finalized."] }
      else Except.ok progressRecord
    else Except.ok progressRecord

/-- Predicate mirroring the regex `^([A-Fa-f0-9]{40})$`. -/
def isHex40 (s : String) : Bool :=
  s.length == 40 && s.toList.all (fun c =>
    c.isDigit || ('a' ≤ c && c ≤ 'f') || ('A' ≤ c && c ≤ 'F'))

/-- `recover`: rebuild a transfer record from a lock transaction hash, then
report current progress through `checkSync`. -/
def recover (env : Env) (lockTxHash : String) : Except Err Transfer :=
  match env.chain.getTransactionReceipt lockTxHash with
  | none => Except.error Err.nilAccess
  | some receipt =>
    let events := env.chain.pastDepositedEvents receipt.blockNumber
    match events.find? (fun ev => ev.transactionHash = lockTxHash) with
    | none => Except.error (Err.eventNotFound "Unable to process lock transaction event.")
    | some lockedEvent =>
      let sender := lockedEvent.sender
      let protocolMessage := lockedEvent.recipient
      let parts := jsSplit ':' protocolMessage
      let auroraEvmAccount := parts.headD ""
      if auroraEvmAccount ≠ env.chain.auroraEvmAccount then
        Except.error (Err.wrongDestination "Failed to parse auroraEvmAccount in protocol message")
      else
        match parts[1]? with
        | none =>
          Except.error (Err.malformedMessage "Failed to parse recipient in protocol message")
        | some auroraRecipient =>
          if isHex40 auroraRecipient = false then
            Except.error (Err.malformedMessage "Failed to parse recipient in protocol message")
          else
            let sourceTokenName := "ETH"
            let t : Transfer := { transferDraft with
              id := env.nowIso
              amount := lockedEvent.amount
              completedStep := some Step.lock
              destinationTokenName := "a" ++ sourceTokenName
              recipient := "0x" ++ auroraRecipient
              sender := sender
              sourceToken := none
              sourceTokenName := sourceTokenName
              symbol := "ETH"
              decimals := 18
              status := Status.inProgress
              lockHashes := [lockTxHash]
              lockReceipts := [receipt] }
            checkSync env t

/-- `act`: dispatch on `completedStep` when status is ACTION_NEEDED or FAILED. -/
def act (env : Env) (t : Transfer) : Except Err Transfer :=
  match t.completedStep with
  | none => lock env t
  | some Step.lock => checkSync env t
  | _ => Except.error (Err.unrecognizedStep ("Don\x27t know how to act on transfer: " ++ t.id))

/-- `checkStatus`: dispatch on `completedStep` when status is IN_PROGRESS. -/
def checkStatus (env : Env) (t : Transfer) : Except Err Transfer :=
  match t.completedStep with
  | none => checkLock env t
  | some Step.lock => checkSync env t
  | _ => Except.error
      (Err.unrecognizedStep ("Don\x27t know how to checkStatus for transfer " ++ t.id))

/-- External entry points of the ether variant. -/
inductive EOp
  | doAct
  | doCheckStatus
  deriving DecidableEq

/-- Apply a single entry point. -/
def applyE : EOp → Env → Transfer → Except Err Transfer
  | EOp.doAct, env, t => act env t
  | EOp.doCheckStatus, env, t => checkStatus env t

/-- Run a sequence of `act` / `checkStatus` calls, threading the record. -/
def runE : List (EOp × Env) → Transfer → Except Err Transfer
  | [], t => Except.ok t
  | (op, env) :: rest, t =>
    match applyE op env t with
    | Except.ok t1 => runE rest t1
    | Except.error e => Except.error e

end Ether

namespace Nep

/-- Transfer record of the natural-nep141 → Aurora module. -/
structure Transfer where
  id : String
  startTime : String
  status : Status
  completedStep : Option Step
  amount : String
  decimals : Nat
  symbol : String
  sourceToken : String
  sourceTokenName : String
  destinationTokenName : String
  sender : String
  recipient : String
  errors : List String
  lockHashes : List String
  deriving DecidableEq

/-- Token metadata returned by the metadata resolver. -/
structure Metadata where
  symbol : String
  decimals : Nat
  deriving DecidableEq

/-- One row of the indexer result consumed by `findAllTransfers`. -/
structure IndexerTx where
  originatedFromTransactionHash : String
  methodName : String
  msg : String
  amount : String
  receiverId : String
  deriving DecidableEq

/-- One action receipt row consumed by `recover`. -/
structure ActionReceipt where
  includedInBlockTimestamp : String
  receiptPredecessorAccountId : String
  methodName : String
  msg : String
  amount : String
  senderId : String
  deriving DecidableEq

/-- Environment of a nep141-variant invocation: url parameters, the NEAR
wallet outcome, the indexer, chain lookups and the id/clock sources. -/
structure NEnv where
  hasWindow : Bool
  urlLocking : Option String
  urlTxHash : Option String
  urlErrorCode : Option String
  lockResult : Except String String
  lockNearResult : Except String String
  txBlockHashOf : String → String
  blockTimestampIso : String → String
  indexerTxs : List IndexerTx
  actionReceipts : List ActionReceipt
  bridgeAuroraEvmAccount : String
  getMetadata : String → Metadata
  successValueOf : String → Option String
  freshId : String → String
  randomId : String
  nowIso : String

/-- `lock`: send `ft_transfer_call`; the returned record keeps only the fresh
transaction hash in `lockHashes`. -/
def lock (env : NEnv) (t : Transfer) : Except Err Transfer :=
  let t := if env.hasWindow then { t with status := Status.inProgress } else t
  match env.lockResult with
  | Except.error m => Except.error (Err.rethrown m)
  | Except.ok h => Except.ok { t with lockHashes := [h] }

/-- `lockNear`: wrap NEAR then send `ft_transfer_call` in one transaction. -/
def lockNear (env : NEnv) (t : Transfer) : Except Err Transfer :=
  let t := if env.hasWindow then { t with status := Status.inProgress } else t
  match env.lockNearResult with
  | Except.error m => Except.error (Err.rethrown m)
  | Except.ok h => Except.ok { t with lockHashes := [h] }

/-- `act` of the nep141 module: only the `null` step is recognized. -/
def act (env : NEnv) (t : Transfer) : Except Err Transfer :=
  match t.completedStep with
  | none => if t.sourceToken = "NEAR" then lockNear env t else lock env t
  | some _ =>
    Except.error (Err.unrecognizedStep ("Don\x27t know how to act on transfer: " ++ t.id))

/-- `checkLock` of the nep141 module: interpret the NEAR-wallet redirect url
parameters for the pending lock transaction. -/
def checkLock (env : NEnv) (t : Transfer) : Except Err Transfer :=
  match env.urlLocking with
  | none =>
    Except.ok { t with
      status := Status.failed
      errors := ["Failed to process NEAR Wallet transaction."] }
  | some id =>
    if id ≠ t.id then
      Except.ok { t with
        status := Status.failed
        errors := ["Failed: Couldn\x27t determine transaction outcome. Got transfer id "
          ++ id ++ " in URL, expected " ++ t.id] }
    else
      match env.urlErrorCode with
      | some errorCode =>
        Except.ok { t with status := Status.failed, errors := ["Failed: " ++ errorCode] }
      | none =>
        match env.urlTxHash with
        | none => Except.ok t
        | some txHash =>
          let startTime := env.blockTimestampIso (env.txBlockHashOf txHash)
          Except.ok { t with
            status := Status.complete
            completedStep := some Step.lock
            startTime := startTime
            lockHashes := t.lockHashes ++ [txHash] }

/-- `checkStatus` of the nep141 module. -/
def checkStatus (env : NEnv) (t : Transfer) : Except Err Transfer :=
  match t.completedStep with
  | none => checkLock env t
  | some _ =>
    Except.error
      (Err.unrecognizedStep ("Don\x27t know how to checkStatus for transfer " ++ t.id))

/-- Predicate mirroring the regex `^[a-f0-9]{40}$`. -/
def isLowerHex40 (s : String) : Bool :=
  s.length == 40 && s.toList.all (fun c => c.isDigit || ('a' ≤ c && c ≤ 'f'))

/-- Predicate mirroring `^sender:0{64}[a-f0-9]{40}$` used for nETH messages. -/
def nethMsgMatches (sender msg : String) : Bool :=
  let prefixStr := sender ++ ":" ++ String.mk (List.replicate 64 '0')
  strStartsWith msg prefixStr && isLowerHex40 (msg.drop prefixStr.length)

/-- The decoded `SuccessValue` of a lock transaction: strip the JSON quotes,
or fall back to the string `0` when decoding throws. -/
def computedSuccessValue (env : NEnv) (h : String) : String :=
  match env.successValueOf h with
  | some s => (s.drop 1).dropRight 1
  | none => "0"

/-- Arguments of `findAllTransfers`. -/
structure FindAllParams where
  fromBlock : String
  toBlock : String
  sender : String
  nep141Address : String
  optAuroraEvmAccount : Option String
  optDecimals : Option Nat
  optSymbol : Option String

/-- Transfer type tag of the nep141 module. -/
def TRANSFER_TYPE : String := "@near-eth/aurora-nep141/natural-nep141/sendToAurora"

/-- `findAllTransfers`: filter indexed transactions to `ft_transfer_call`
lock calls with a well-formed recipient message, then verify the on-chain
success value against the claimed amount, dropping mismatches. -/
def findAllTransfers (env : NEnv) (p : FindAllParams) : List Transfer :=
  let auroraEvmAccount := p.optAuroraEvmAccount.getD env.bridgeAuroraEvmAccount
  let metadata : Metadata :=
    if p.nep141Address = auroraEvmAccount then { decimals := 18, symbol := "ETH" }
    else if p.optSymbol.isNone || p.optDecimals.isNone then env.getMetadata p.nep141Address
    else { decimals := 0, symbol := "" }
  let symbol := p.optSymbol.getD metadata.symbol
  let decimals := p.optDecimals.getD metadata.decimals
  (((env.indexerTxs.filter (fun tx => tx.methodName = "ft_transfer_call")).filter
      (fun tx => tx.receiverId = auroraEvmAccount &&
        (if p.nep141Address = auroraEvmAccount then nethMsgMatches p.sender tx.msg
         else isLowerHex40 tx.msg))).filterMap
    (fun tx =>
      let h := tx.originatedFromTransactionHash
      let successValue := computedSuccessValue env h
      let amount := tx.amount
      let msg := tx.msg
      let recipient := if p.nep141Address = auroraEvmAccount
        then "0x" ++ (msg.drop (msg.length - 40)) else "0x" ++ msg
      if amount ≠ successValue then none
      else some {
        id := env.freshId h
        startTime := env.blockTimestampIso (env.txBlockHashOf h)
        amount := amount
        decimals := decimals
        symbol := symbol
        sourceToken := p.nep141Address
        sourceTokenName := metadata.symbol
        destinationTokenName := "a" ++ metadata.symbol
        sender := p.sender
        recipient := recipient
        status := Status.complete
        completedStep := some Step.lock
        errors := []
        lockHashes := [h] }))

/-- The first field of a message before `:`, as `substr(0, indexOf)` computes
it, empty when no separator occurs. -/
def firstField (msg : String) : String :=
  if strContainsChar msg ':' then msg.takeWhile (fun c => c ≠ ':') else ""

/-- `recover` of the nep141 module: rebuild a completed transfer from the
`ft_on_transfer` action receipt of a lock transaction hash. -/
def recover (env : NEnv) (lockTxHash : String)
    (options : Option String × Option Nat × Option String) : Except Err Transfer :=
  let auroraEvmAccount := options.1.getD env.bridgeAuroraEvmAccount
  match env.actionReceipts.filter (fun r =>
      r.methodName = "ft_on_transfer" &&
      isLowerHex40 (r.msg.drop (r.msg.length - 40))) with
  | [] =>
    Except.error (Err.eventNotFound
      ("Failed to verify " ++ auroraEvmAccount ++ " ft_on_transfer action receipt"))
  | r :: _ =>
    let nep141Address := r.receiptPredecessorAccountId
    let metadata : Metadata :=
      if nep141Address = auroraEvmAccount then { decimals := 18, symbol := "ETH" }
      else if options.2.2.isNone || options.2.1.isNone then env.getMetadata nep141Address
      else { decimals := 0, symbol := "" }
    let symbol := options.2.2.getD metadata.symbol
    let decimals := options.2.1.getD metadata.decimals
    let sender0 := r.senderId
    let sender := if sender0 = auroraEvmAccount then firstField r.msg else sender0
    Except.ok {
      id := env.randomId
      startTime := env.blockTimestampIso r.includedInBlockTimestamp
      amount := r.amount
      decimals := decimals
      symbol := symbol
      sourceToken := nep141Address
      sourceTokenName := metadata.symbol
      destinationTokenName := "a" ++ metadata.symbol
      sender := sender
      recipient := "0x" ++ (r.msg.drop (r.msg.length - 40))
      status := Status.complete
      completedStep := some Step.lock
      errors := []
      lockHashes := [lockTxHash] }

/-- External entry points of the nep141 variant. -/
inductive NOp
  | doAct
  | doCheckStatus
  deriving DecidableEq

/-- Apply a single entry point. -/
def applyN : NOp → NEnv → Transfer → Except Err Transfer
  | NOp.doAct, env, t => act env t
  | NOp.doCheckStatus, env, t => checkStatus env t

/-- Run a sequence of `act` / `checkStatus` calls, threading the record. -/
def runN : List (NOp × NEnv) → Transfer → Except Err Transfer
  | [], t => Except.ok t
  | (op, env) :: rest, t =>
    match applyN op env t with
    | Except.ok t1 => runN rest t1
    | Except.error e => Except.error e

end Nep

/-! ## Helper lemmas -/

/-- A successful `checkSync` keeps `id`, `lockReceipts` and `mintHashes`, at
most appends to `errors`, and either keeps `completedStep` or sets it to
`Mint`. -/
theorem checkSync_ok_spec (env : Ether.Env) (t r : Ether.Transfer)
    (h : Ether.checkSync env t = Except.ok r) :
    r.id = t.id ∧ r.lockReceipts = t.lockReceipts ∧ r.mintHashes = t.mintHashes ∧
    (∃ es, r.errors = t.errors ++ es) ∧
    (r.completedStep = t.completedStep ∨ r.completedStep = some Step.mint) := by
  unfold Ether.checkSync at h
  cases hl : t.lockReceipts.getLast? with
  | none => rw [hl] at h; exact Except.noConfusion h
  | some lr =>
    rw [hl] at h
    dsimp only at h
    split at h
    · split at h
      · injection h with h
        subst h
        exact ⟨rfl, rfl, rfl, ⟨_, rfl⟩, Or.inr rfl⟩
      · injection h with h
        subst h
        exact ⟨rfl, rfl, rfl, ⟨[], by simp⟩, Or.inl rfl⟩
    · injection h with h
      subst h
      exact ⟨rfl, rfl, rfl, ⟨[], by simp⟩, Or.inl rfl⟩

/-- A successful `finishLock` at most appends to `errors`, and either keeps
`completedStep` (revert path) or sets it to `Lock` with a freshly appended
receipt. -/
theorem finishLock_ok_spec (env : Ether.Env) (t : Ether.Transfer)
    (lockHash : String) (rc : Receipt) (r : Ether.Transfer)
    (h : Ether.finishLock env t lockHash rc = Except.ok r) :
    (∃ es, r.errors = t.errors ++ es) ∧
    (r.completedStep = t.completedStep ∨
      (r.completedStep = some Step.lock ∧ r.lockReceipts ≠ [])) := by
  unfold Ether.finishLock at h
  split at h
  · injection h with h
    subst h
    exact ⟨⟨_, rfl⟩, Or.inl rfl⟩
  · dsimp only at h
    split at h
    · injection h with h
      subst h
      exact ⟨⟨[], by simp⟩, Or.inr ⟨rfl, by simp⟩⟩
    · injection h with h
      subst h
      exact ⟨⟨[], by simp⟩, Or.inr ⟨rfl, by simp⟩⟩

/-- A successful `checkLock` at most appends to `errors`, and either keeps
`completedStep` or sets it to `Lock` with a non-empty receipt trail. -/
theorem checkLock_ok_spec (env : Ether.Env) (t r : Ether.Transfer)
    (h : Ether.checkLock env t = Except.ok r) :
    (∃ es, r.errors = t.errors ++ es) ∧
    (r.completedStep = t.completedStep ∨
      (r.completedStep = some Step.lock ∧ r.lockReceipts ≠ [])) := by
  unfold Ether.checkLock at h
  split at h
  · injection h with h
    subst h
    exact ⟨⟨[], by simp⟩, Or.inl rfl⟩
  · cases hgl : t.lockHashes.getLast? with
    | none => rw [hgl] at h; exact Except.noConfusion h
    | some lockHash =>
      rw [hgl] at h
      dsimp only at h
      cases hrc : env.chain.getTransactionReceipt lockHash with
      | some rc =>
        rw [hrc] at h
        exact finishLock_ok_spec env t lockHash rc r h
      | none =>
        rw [hrc] at h
        dsimp only at h
        cases hec : t.ethCache with
        | none => rw [hec] at h; exact Except.noConfusion h
        | some cache =>
          rw [hec] at h
          dsimp only at h
          cases hfr : env.chain.findReplacementTx cache with
          | notYetFound =>
            rw [hfr] at h
            injection h with h
            subst h
            exact ⟨⟨[], by simp⟩, Or.inl rfl⟩
          | searchErr m =>
            rw [hfr] at h
            injection h with h
            subst h
            exact ⟨⟨_, rfl⟩, Or.inl rfl⟩
          | validationErr m =>
            rw [hfr] at h
            injection h with h
            subst h
            exact ⟨⟨_, rfl⟩, Or.inl rfl⟩
          | thrown m => rw [hfr] at h; exact Except.noConfusion h
          | found h2 =>
            rw [hfr] at h
            dsimp only at h
            cases hr2 : env.chain.getTransactionReceipt h2 with
            | none =>
              rw [hr2] at h
              injection h with h
              subst h
              exact ⟨⟨[], by simp⟩, Or.inl rfl⟩
            | some rc =>
              rw [hr2] at h
              exact finishLock_ok_spec env t lockHash rc r h

/-- A successful ether-variant `lock` keeps `id`, `completedStep` and
`errors`. -/
theorem lock_ok_spec (env : Ether.Env) (t r : Ether.Transfer)
    (h : Ether.lock env t = Except.ok r) :
    r.id = t.id ∧ r.completedStep = t.completedStep ∧ r.errors = t.errors := by
  unfold Ether.lock at h
  split at h
  · exact Except.noConfusion h
  · dsimp only at h
    cases hb : env.chain.broadcastLock with
    | error m => rw [hb] at h; exact Except.noConfusion h
    | ok lockHash =>
      rw [hb] at h
      injection h with h
      subst h
      exact ⟨rfl, rfl, rfl⟩

/-- A successful nep141-variant `lock` keeps `id`, `completedStep` and
`errors`. -/
theorem nep_lock_ok_spec (env : Nep.NEnv) (t r : Nep.Transfer)
    (h : Nep.lock env t = Except.ok r) :
    r.id = t.id ∧ r.completedStep = t.completedStep ∧ r.errors = t.errors := by
  unfold Nep.lock at h
  dsimp only at h
  cases hb : env.lockResult with
  | error m => rw [hb] at h; exact Except.noConfusion h
  | ok hsh =>
    rw [hb] at h
    injection h with h
    subst h
    refine ⟨?_, ?_, ?_⟩ <;> cases hw : env.hasWindow <;> simp [hw]

/-- A successful `lockNear` keeps `id`, `completedStep` and `errors`. -/
theorem nep_lockNear_ok_spec (env : Nep.NEnv) (t r : Nep.Transfer)
    (h : Nep.lockNear env t = Except.ok r) :
    r.id = t.id ∧ r.completedStep = t.completedStep ∧ r.errors = t.errors := by
  unfold Nep.lockNear at h
  dsimp only at h
  cases hb : env.lockNearResult with
  | error m => rw [hb] at h; exact Except.noConfusion h
  | ok hsh =>
    rw [hb] at h
    injection h with h
    subst h
    refine ⟨?_, ?_, ?_⟩ <;> cases hw : env.hasWindow <;> simp [hw]

/-- A single successful `act` or `checkStatus` call of the ether variant
never lowers the rank of `completedStep`. -/
theorem applyE_mono (op : Ether.EOp) (env : Ether.Env) (t r : Ether.Transfer)
    (h : Ether.applyE op env t = Except.ok r) :
    stepRank t.completedStep ≤ stepRank r.completedStep := by
  cases op with
  | doAct =>
    unfold Ether.applyE Ether.act at h
    dsimp only at h
    cases hcs : t.completedStep with
    | none => exact Nat.zero_le _
    | some s =>
      rw [hcs] at h
      cases s with
      | lock =>
        dsimp only at h
        rcases (checkSync_ok_spec env t r h).2.2.2.2 with hstep | hstep
        · rw [hstep, hcs]
        · rw [hstep]
          exact Nat.le_succ_of_le (Nat.le_succ_of_le (Nat.le_refl 1))
      | sync => exact Except.noConfusion h
      | mint => exact Except.noConfusion h
  | doCheckStatus =>
    unfold Ether.applyE Ether.checkStatus at h
    dsimp only at h
    cases hcs : t.completedStep with
    | none => exact Nat.zero_le _
    | some s =>
      rw [hcs] at h
      cases s with
      | lock =>
        dsimp only at h
        rcases (checkSync_ok_spec env t r h).2.2.2.2 with hstep | hstep
        · rw [hstep, hcs]
        · rw [hstep]
          exact Nat.le_succ_of_le (Nat.le_succ_of_le (Nat.le_refl 1))
      | sync => exact Except.noConfusion h
      | mint => exact Except.noConfusion h

/-- A single successful `act` or `checkStatus` call of the nep141 variant
never lowers the rank of `completedStep`. -/
theorem applyN_mono (op : Nep.NOp) (env : Nep.NEnv) (t r : Nep.Transfer)
    (h : Nep.applyN op env t = Except.ok r) :
    stepRank t.completedStep ≤ stepRank r.completedStep := by
  cases op with
  | doAct =>
    unfold Nep.applyN Nep.act at h
    dsimp only at h
    cases hcs : t.completedStep with
    | none => exact Nat.zero_le _
    | some s => rw [hcs] at h; exact Except.noConfusion h
  | doCheckStatus =>
    unfold Nep.applyN Nep.checkStatus at h
    dsimp only at h
    cases hcs : t.completedStep with
    | none => exact Nat.zero_le _
    | some s => rw [hcs] at h; exact Except.noConfusion h

/-- Along any successful run of ether-variant entry points, `completedStep`
rank is non-decreasing. -/
theorem runE_mono (ops : List (Ether.EOp × Ether.Env)) (t r : Ether.Transfer)
    (h : Ether.runE ops t = Except.ok r) :
    stepRank t.completedStep ≤ stepRank r.completedStep := by
  induction ops generalizing t with
  | nil =>
    unfold Ether.runE at h
    injection h with h
    subst h
    exact Nat.le_refl _
  | cons p rest ih =>
    obtain ⟨op, env⟩ := p
    unfold Ether.runE at h
    cases ha : Ether.applyE op env t with
    | error e => rw [ha] at h; exact Except.noConfusion h
    | ok t1 =>
      rw [ha] at h
      dsimp only at h
      exact Nat.le_trans (applyE_mono op env t t1 ha) (ih t1 h)

/-- Along any successful run of nep141-variant entry points, `completedStep`
rank is non-decreasing. -/
theorem runN_mono (ops : List (Nep.NOp × Nep.NEnv)) (t r : Nep.Transfer)
    (h : Nep.runN ops t = Except.ok r) :
    stepRank t.completedStep ≤ stepRank r.completedStep := by
  induction ops generalizing t with
  | nil =>
    unfold Nep.runN at h
    injection h with h
    subst h
    exact Nat.le_refl _
  | cons p rest ih =>
    obtain ⟨op, env⟩ := p
    unfold Nep.runN at h
    cases ha : Nep.applyN op env t with
    | error e => rw [ha] at h; exact Except.noConfusion h
    | ok t1 =>
      rw [ha] at h
      dsimp only at h
      exact Nat.le_trans (applyN_mono op env t t1 ha) (ih t1 h)

/-! ## Claim theorems -/

/-- C1: for a record whose last lock receipt is `lr`, `checkSync` recomputes
`completedConfirmations = max 0 (syncedHeight − lockEventHeight)`; when that
exceeds `neededConfirmations` and the destination anti-replay registry reports
the proof already used, the result is `Complete` at step `Mint`, otherwise it
is `InProgress` carrying the updated confirmations. -/
theorem c1_checkSync_confirmations (env : Ether.Env) (t : Ether.Transfer)
    (lr : Receipt) (hlast : t.lockReceipts.getLast? = some lr) :
    (max 0 (env.chain.syncedHeight - lr.blockNumber) > t.neededConfirmations ∧
       env.chain.isUsedProof (env.chain.findProof lr.transactionHash) = true →
      Ether.checkSync env t = Except.ok { t with
        completedStep := some Step.mint
        completedConfirmations := max 0 (env.chain.syncedHeight - lr.blockNumber)
        status := Status.complete
        errors := t.errors ++ ["Transfer already finalized."] }) ∧
    (¬ (max 0 (env.chain.syncedHeight - lr.blockNumber) > t.neededConfirmations ∧
       env.chain.isUsedProof (env.chain.findProof lr.transactionHash) = true) →
      Ether.checkSync env t = Except.ok { t with
        completedConfirmations := max 0 (env.chain.syncedHeight - lr.blockNumber)
        status := Status.inProgress }) := by
  unfold Ether.checkSync
  rw [hlast]
  dsimp only
  constructor
  · rintro ⟨h1, h2⟩
    rw [if_pos h1, if_pos h2]
  · intro hneg
    by_cases h1 : max 0 (env.chain.syncedHeight - lr.blockNumber) > t.neededConfirmations
    · have h2 : ¬ env.chain.isUsedProof (env.chain.findProof lr.transactionHash) = true :=
        fun h2 => hneg ⟨h1, h2⟩
      rw [if_pos h1, if_neg h2]
    · rw [if_neg h1]

/-- Chain fixture: light client synced to height 119, proof registry reports
used. -/
def chainC1a : Ether.Chain where
  ethNetwork := "main"
  ethNetworkId := "main"
  getTransactionReceipt := fun _ => none
  findReplacementTx := fun _ => FinderRes.notYetFound
  getRevertReason := fun _ => Except.error "x"
  syncedHeight := 119
  findProof := fun h => h
  isUsedProof := fun _ => true
  pastDepositedEvents := fun _ => []
  auroraEvmAccount := "aurora"
  blockNumber := 0
  broadcastLock := Except.ok "0xabc"
  pendingTx := fun _ => { fromAddr := "", toAddr := "", nonce := 0, input := "" }

/-- Chain fixture: light client synced to height 121, proof registry reports
used. -/
def chainC1b : Ether.Chain := { chainC1a with syncedHeight := 121 }

/-- Record fixture: lock event mined at height 100, 20 confirmations needed. -/
def tC1 : Ether.Transfer := { Ether.transferDraft with
  completedStep := some Step.lock
  status := Status.inProgress
  lockHashes := ["0xabc"]
  lockReceipts := [{ blockNumber := 100, transactionHash := "0xabc", status := true }] }

/-- Witness for C1: synced height 119 with the event at height 100 yields 19
confirmations and `InProgress`; synced height 121 with the proof already used
yields `Complete` at step `Mint`. -/
theorem c1_checkSync_confirmations_witness :
    Ether.checkSync { chain := chainC1a, nowIso := "" } tC1 = Except.ok { tC1 with
      completedConfirmations := 19, status := Status.inProgress } ∧
    Ether.checkSync { chain := chainC1b, nowIso := "" } tC1 = Except.ok { tC1 with
      completedStep := some Step.mint
      completedConfirmations := 21
      status := Status.complete
      errors := tC1.errors ++ ["Transfer already finalized."] } := by
  constructor
  · have h := (c1_checkSync_confirmations { chain := chainC1a, nowIso := "" } tC1
      { blockNumber := 100, transactionHash := "0xabc", status := true } rfl).2 (by decide)
    exact h
  · have h := (c1_checkSync_confirmations { chain := chainC1b, nowIso := "" } tC1
      { blockNumber := 100, transactionHash := "0xabc", status := true } rfl).1 (by decide)
    exact h

/-- C3: over either protocol variant, `completedStep` — ordered
None < Lock < Sync < Mint by `stepRank` — is non-decreasing across every
successful sequence of `act` / `checkStatus` calls. -/
theorem c3_completedStep_monotone :
    (∀ (ops : List (Ether.EOp × Ether.Env)) (t r : Ether.Transfer),
      Ether.runE ops t = Except.ok r →
      stepRank t.completedStep ≤ stepRank r.completedStep) ∧
    (∀ (ops : List (Nep.NOp × Nep.NEnv)) (t r : Nep.Transfer),
      Nep.runN ops t = Except.ok r →
      stepRank t.completedStep ≤ stepRank r.completedStep) :=
  ⟨runE_mono, runN_mono⟩

/-- Chain fixture for the C3 witness: the lock receipt is found successful, so
`checkStatus` advances the record from step None to step Lock. -/
def chainC3 : Ether.Chain where
  ethNetwork := "main"
  ethNetworkId := "main"
  getTransactionReceipt := fun hsh =>
    if hsh = "0xabc" then some { blockNumber := 100, transactionHash := "0xabc", status := true }
    else none
  findReplacementTx := fun _ => FinderRes.notYetFound
  getRevertReason := fun _ => Except.error "x"
  syncedHeight := 105
  findProof := fun h => h
  isUsedProof := fun _ => false
  pastDepositedEvents := fun _ => []
  auroraEvmAccount := "aurora"
  blockNumber := 0
  broadcastLock := Except.ok "0xabc"
  pendingTx := fun _ => { fromAddr := "", toAddr := "", nonce := 0, input := "" }

/-- Record fixture for the C3 witness: broadcast lock awaiting confirmation. -/
def tC3 : Ether.Transfer := { Ether.transferDraft with
  id := "t3"
  status := Status.inProgress
  lockHashes := ["0xabc"] }

/-- The record C3's witness run produces. -/
def rC3 : Ether.Transfer :=
  (Ether.runE [(Ether.EOp.doCheckStatus, { chain := chainC3, nowIso := "" })] tC3).toOption.getD tC3

/-- Nep141 environment fixture for the C3 witness: the wallet redirect carries
a successful transaction hash. -/
def envNC3 : Nep.NEnv where
  hasWindow := true
  urlLocking := some "t3n"
  urlTxHash := some "0xdef"
  urlErrorCode := none
  lockResult := Except.ok "0xaaa"
  lockNearResult := Except.ok "0xbbb"
  txBlockHashOf := fun _ => "blk"
  blockTimestampIso := fun _ => "2021-01-01T00:00:00.000Z"
  indexerTxs := []
  actionReceipts := []
  bridgeAuroraEvmAccount := "aurora"
  getMetadata := fun _ => { symbol := "TOK", decimals := 6 }
  successValueOf := fun _ => none
  freshId := fun _ => "id"
  randomId := "id"
  nowIso := ""

/-- Nep141 record fixture for the C3 witness. -/
def tNC3 : Nep.Transfer where
  id := "t3n"
  startTime := ""
  status := Status.inProgress
  completedStep := none
  amount := "1"
  decimals := 6
  symbol := "TOK"
  sourceToken := "tok.near"
  sourceTokenName := "TOK"
  destinationTokenName := "aTOK"
  sender := "alice.near"
  recipient := "0x" ++ "abababababababababababababababababababab"
  errors := []
  lockHashes := ["0xccc"]

/-- The record C3's nep141 witness run produces. -/
def rNC3 : Nep.Transfer :=
  (Nep.runN [(Nep.NOp.doCheckStatus, envNC3)] tNC3).toOption.getD tNC3

/-- Witness for C3: one concrete `checkStatus` call per variant, each advancing
None to Lock, with the rank comparison discharged by the theorem. -/
theorem c3_completedStep_monotone_witness :
    stepRank tC3.completedStep ≤ stepRank rC3.completedStep ∧
    stepRank tNC3.completedStep ≤ stepRank rNC3.completedStep :=
  ⟨c3_completedStep_monotone.1
      [(Ether.EOp.doCheckStatus, { chain := chainC3, nowIso := "" })] tC3 rC3 (by rfl),
    c3_completedStep_monotone.2 [(Nep.NOp.doCheckStatus, envNC3)] tNC3 rNC3 (by rfl)⟩

/-- C2: in `checkLock`, when no receipt exists for the newest `lockHashes`
entry: an inconclusive replacement search leaves the record unchanged; a
conclusive search/validation failure returns status `Failed` with the error
message appended to `errors`; a found replacement whose receipt indicates
success appends the replacement hash to `lockHashes`, appends the receipt to
`lockReceipts`, and sets `completedStep = Lock`. -/
theorem c2_checkLock_replacement (env : Ether.Env) (t : Ether.Transfer)
    (lockHash : String) (cache : EthCache)
    (hnet : env.chain.ethNetwork = env.chain.ethNetworkId)
    (hlast : t.lockHashes.getLast? = some lockHash)
    (hrc : env.chain.getTransactionReceipt lockHash = none)
    (hec : t.ethCache = some cache) :
    (env.chain.findReplacementTx cache = FinderRes.notYetFound →
      Ether.checkLock env t = Except.ok t) ∧
    (∀ m, (env.chain.findReplacementTx cache = FinderRes.searchErr m ∨
        env.chain.findReplacementTx cache = FinderRes.validationErr m) →
      Ether.checkLock env t = Except.ok
        { t with errors := t.errors ++ [m], status := Status.failed }) ∧
    (∀ h2 rc, env.chain.findReplacementTx cache = FinderRes.found h2 →
      env.chain.getTransactionReceipt h2 = some rc →
      rc.status = true → rc.transactionHash ≠ lockHash →
      Ether.checkLock env t = Except.ok
        { t with
          lockHashes := t.lockHashes ++ [rc.transactionHash]
          lockReceipts := t.lockReceipts ++ [rc]
          status := Status.inProgress
          completedStep := some Step.lock }) := by
  have hnet2 : ¬ env.chain.ethNetwork ≠ env.chain.ethNetworkId := fun hh => hh hnet
  refine ⟨?_, ?_, ?_⟩
  · intro hfr
    unfold Ether.checkLock
    rw [if_neg hnet2, hlast]
    dsimp only
    rw [hrc]
    dsimp only
    rw [hec]
    dsimp only
    rw [hfr]
  · intro m hm
    unfold Ether.checkLock
    rw [if_neg hnet2, hlast]
    dsimp only
    rw [hrc]
    dsimp only
    rw [hec]
    dsimp only
    rcases hm with hfr | hfr
    · rw [hfr]
    · rw [hfr]
  · intro h2 rc hfr hr2 hst hne
    unfold Ether.checkLock
    rw [if_neg hnet2, hlast]
    dsimp only
    rw [hrc]
    dsimp only
    rw [hec]
    dsimp only
    rw [hfr]
    dsimp only
    rw [hr2]
    dsimp only
    unfold Ether.finishLock
    rw [if_neg (by simp [hst])]
    dsimp only
    rw [if_pos hne]
    dsimp only
    rw [hec]

/-- Chain fixture for the C2 witness: the broadcast hash 0xabc has no receipt;
the finder locates the replacement 0xdef, whose receipt indicates success. -/
def chainC2 : Ether.Chain where
  ethNetwork := "main"
  ethNetworkId := "main"
  getTransactionReceipt := fun hsh =>
    if hsh = "0xdef" then some { blockNumber := 101, transactionHash := "0xdef", status := true }
    else none
  findReplacementTx := fun _ => FinderRes.found "0xdef"
  getRevertReason := fun _ => Except.error "x"
  syncedHeight := 0
  findProof := fun h => h
  isUsedProof := fun _ => false
  pastDepositedEvents := fun _ => []
  auroraEvmAccount := "aurora"
  blockNumber := 0
  broadcastLock := Except.ok "0xabc"
  pendingTx := fun _ => { fromAddr := "", toAddr := "", nonce := 0, input := "" }

/-- Replacement-search cache fixture for the C2 witness. -/
def cacheC2 : EthCache where
  fromAddr := "0xme"
  toAddr := "0xlocker"
  nonce := 7
  data := "0xdata"
  safeReorgHeight := 90

/-- Record fixture for the C2 witness: lock broadcast as 0xabc, replacement
cache present. -/
def tC2 : Ether.Transfer := { Ether.transferDraft with
  id := "t2"
  status := Status.inProgress
  lockHashes := ["0xabc"]
  ethCache := some cacheC2 }

/-- Witness for C2: the transfer broadcast as 0xabc and replaced by a
successful 0xdef ends with `lockHashes = [0xabc, 0xdef]` and
`completedStep = Lock`. -/
theorem c2_checkLock_replacement_witness :
    Ether.checkLock { chain := chainC2, nowIso := "" } tC2 = Except.ok
      { tC2 with
        lockHashes := ["0xabc", "0xdef"]
        lockReceipts := [{ blockNumber := 101, transactionHash := "0xdef", status := true }]
        status := Status.inProgress
        completedStep := some Step.lock } := by
  have h := (c2_checkLock_replacement { chain := chainC2, nowIso := "" } tC2 "0xabc"
    cacheC2 rfl rfl (by decide) rfl).2.2 "0xdef"
    { blockNumber := 101, transactionHash := "0xdef", status := true }
    rfl (by decide) rfl (by decide)
  exact h

/-- C4 (amended): the ether-variant operations `act`, `checkStatus`,
`checkLock` and `checkSync` only append to `errors` (the input's `errors` is
a prefix of the output's), and so does the nep141-variant `act`; the
nep141-variant `checkLock` — hence its `checkStatus` — instead replaces
`errors` with a fresh one-element list when it records a wallet-redirect
failure. -/
theorem c4_errors_append_only :
    (∀ (env : Ether.Env) (t r : Ether.Transfer), Ether.act env t = Except.ok r →
      ∃ es, r.errors = t.errors ++ es) ∧
    (∀ (env : Ether.Env) (t r : Ether.Transfer), Ether.checkStatus env t = Except.ok r →
      ∃ es, r.errors = t.errors ++ es) ∧
    (∀ (env : Ether.Env) (t r : Ether.Transfer), Ether.checkLock env t = Except.ok r →
      ∃ es, r.errors = t.errors ++ es) ∧
    (∀ (env : Ether.Env) (t r : Ether.Transfer), Ether.checkSync env t = Except.ok r →
      ∃ es, r.errors = t.errors ++ es) ∧
    (∀ (env : Nep.NEnv) (t r : Nep.Transfer), Nep.act env t = Except.ok r →
      ∃ es, r.errors = t.errors ++ es) := by
  refine ⟨?_, ?_, ?_, ?_, ?_⟩
  · intro env t r h
    unfold Ether.act at h
    cases hcs : t.completedStep with
    | none =>
      rw [hcs] at h
      dsimp only at h
      exact ⟨[], by rw [(lock_ok_spec env t r h).2.2, List.append_nil]⟩
    | some s =>
      rw [hcs] at h
      cases s with
      | lock => exact (checkSync_ok_spec env t r h).2.2.2.1
      | sync => exact Except.noConfusion h
      | mint => exact Except.noConfusion h
  · intro env t r h
    unfold Ether.checkStatus at h
    cases hcs : t.completedStep with
    | none =>
      rw [hcs] at h
      dsimp only at h
      exact (checkLock_ok_spec env t r h).1
    | some s =>
      rw [hcs] at h
      cases s with
      | lock => exact (checkSync_ok_spec env t r h).2.2.2.1
      | sync => exact Except.noConfusion h
      | mint => exact Except.noConfusion h
  · intro env t r h
    exact (checkLock_ok_spec env t r h).1
  · intro env t r h
    exact (checkSync_ok_spec env t r h).2.2.2.1
  · intro env t r h
    unfold Nep.act at h
    cases hcs : t.completedStep with
    | none =>
      rw [hcs] at h
      dsimp only at h
      split at h
      · exact ⟨[], by rw [(nep_lockNear_ok_spec env t r h).2.2, List.append_nil]⟩
      · exact ⟨[], by rw [(nep_lock_ok_spec env t r h).2.2, List.append_nil]⟩
    | some s => rw [hcs] at h; exact Except.noConfusion h

/-- Nep141 environment fixture for the C4 counterexample: the wallet-redirect
url parameters carry no transfer id. -/
def envC4 : Nep.NEnv where
  hasWindow := true
  urlLocking := none
  urlTxHash := none
  urlErrorCode := none
  lockResult := Except.ok "0xaaa"
  lockNearResult := Except.ok "0xbbb"
  txBlockHashOf := fun _ => "blk"
  blockTimestampIso := fun _ => ""
  indexerTxs := []
  actionReceipts := []
  bridgeAuroraEvmAccount := "aurora"
  getMetadata := fun _ => { symbol := "", decimals := 0 }
  successValueOf := fun _ => none
  freshId := fun _ => ""
  randomId := ""
  nowIso := ""

/-- Nep141 record fixture for the C4 counterexample: it already holds an
earlier error entry. -/
def tC4 : Nep.Transfer where
  id := "t4"
  startTime := ""
  status := Status.inProgress
  completedStep := none
  amount := "1"
  decimals := 0
  symbol := ""
  sourceToken := "tok.near"
  sourceTokenName := ""
  destinationTokenName := ""
  sender := "alice.near"
  recipient := "0xab"
  errors := ["previous error"]
  lockHashes := ["0xccc"]

/-- Counterexample for C4: the nep141 `checkLock` returns a record whose
`errors` does not extend the input's `errors` — the earlier entry is dropped
and replaced by the fresh failure message. -/
theorem c4_errors_append_only_counterexample :
    ∃ r, Nep.checkLock envC4 tC4 = Except.ok r ∧ ¬ ∃ es, r.errors = tC4.errors ++ es := by
  refine ⟨{ tC4 with
    status := Status.failed
    errors := ["Failed to process NEAR Wallet transaction."] }, by rfl, ?_⟩
  rintro ⟨es, hes⟩
  have h0 : ("Failed to process NEAR Wallet transaction." : String) = "previous error" := by
    have h1 := congrArg List.head? hes
    simp [tC4] at h1
  exact absurd h0 (by decide)

/-- Ether record fixture for the C4 witness: a failed lock receipt makes
`checkLock` append a revert reason. -/
def tC4w : Ether.Transfer := { Ether.transferDraft with
  id := "t4w"
  status := Status.inProgress
  errors := ["earlier"]
  lockHashes := ["0xabc"] }

/-- Chain fixture for the C4 witness: the lock transaction reverted and the
revert-reason lookup succeeds. -/
def chainC4w : Ether.Chain := { chainC3 with
  getTransactionReceipt := fun hsh =>
    if hsh = "0xabc" then some { blockNumber := 100, transactionHash := "0xabc", status := false }
    else none
  getRevertReason := fun _ => Except.ok "execution reverted: no deposit" }

/-- The record the C4 witness call produces. -/
def rC4w : Ether.Transfer :=
  (Ether.checkStatus { chain := chainC4w, nowIso := "" } tC4w).toOption.getD tC4w

/-- Witness for C4: a concrete ether-variant `checkStatus` call whose output
errors extend the input errors. -/
theorem c4_errors_append_only_witness : ∃ es, rC4w.errors = tC4w.errors ++ es :=
  c4_errors_append_only.2.1 { chain := chainC4w, nowIso := "" } tC4w rC4w (by rfl)

/-- C5 (amended): with unchanged chain state, `checkSync` is idempotent on
every output it leaves `InProgress`; when it completes the transfer via the
proof-already-used branch, re-running it returns the same record except that
`Transfer already finalized.` is appended to `errors` once more. -/
theorem c5_checkSync_idempotent_amended (env : Ether.Env) (t r : Ether.Transfer)
    (h : Ether.checkSync env t = Except.ok r) :
    (r.status = Status.inProgress → Ether.checkSync env r = Except.ok r) ∧
    (r.status = Status.complete →
      Ether.checkSync env r =
        Except.ok { r with errors := r.errors ++ ["Transfer already finalized."] }) := by
  unfold Ether.checkSync at h
  cases hl : t.lockReceipts.getLast? with
  | none => rw [hl] at h; exact Except.noConfusion h
  | some lr =>
    rw [hl] at h
    dsimp only at h
    split at h
    · next hc1 =>
      split at h
      · next hused =>
        injection h with h
        subst h
        constructor
        · intro hst
          exact Status.noConfusion hst
        · intro _
          unfold Ether.checkSync
          dsimp only
          rw [hl]
          dsimp only
          rw [if_pos hc1, if_pos hused]
      · next hused =>
        injection h with h
        subst h
        constructor
        · intro _
          unfold Ether.checkSync
          dsimp only
          rw [hl]
          dsimp only
          rw [if_pos hc1, if_neg hused]
        · intro hst
          exact Status.noConfusion hst
    · next hc1 =>
      injection h with h
      subst h
      constructor
      · intro _
        unfold Ether.checkSync
        dsimp only
        rw [hl]
        dsimp only
        rw [if_neg hc1]
      · intro hst
        exact Status.noConfusion hst

/-- Chain fixture for the C5 counterexample: enough confirmations and the
proof already used, so `checkSync` takes the completion branch. -/
def chainC5 : Ether.Chain where
  ethNetwork := "main"
  ethNetworkId := "main"
  getTransactionReceipt := fun _ => none
  findReplacementTx := fun _ => FinderRes.notYetFound
  getRevertReason := fun _ => Except.error "x"
  syncedHeight := 121
  findProof := fun h => h
  isUsedProof := fun _ => true
  pastDepositedEvents := fun _ => []
  auroraEvmAccount := "aurora"
  blockNumber := 0
  broadcastLock := Except.ok "0xabc"
  pendingTx := fun _ => { fromAddr := "", toAddr := "", nonce := 0, input := "" }

/-- Environment fixture for the C5 counterexample. -/
def envC5 : Ether.Env := { chain := chainC5, nowIso := "" }

/-- Record fixture for the C5 counterexample. -/
def tC5 : Ether.Transfer := { Ether.transferDraft with
  id := "t5"
  completedStep := some Step.lock
  status := Status.inProgress
  lockHashes := ["0xabc"]
  lockReceipts := [{ blockNumber := 100, transactionHash := "0xabc", status := true }] }

/-- The output of the first `checkSync` call of the C5 counterexample. -/
def rC5 : Ether.Transfer := (Ether.checkSync envC5 tC5).toOption.getD tC5

/-- Counterexample for C5: with unchanged chain state, re-running `checkSync`
on its own completed output does not reproduce it — the second call appends
`Transfer already finalized.` to `errors` again. -/
theorem c5_checkSync_idempotent_counterexample :
    Ether.checkSync envC5 tC5 = Except.ok rC5 ∧
    ¬ Ether.checkSync envC5 rC5 = Except.ok rC5 := by
  refine ⟨by rfl, fun hcontra => ?_⟩
  have h1 := congrArg (fun x => (Except.toOption x).map Ether.Transfer.errors) hcontra
  exact absurd h1 (by decide)

/-- Chain fixture for the C5 witness: too few confirmations, so `checkSync`
reports progress. -/
def chainC5w : Ether.Chain := { chainC5 with syncedHeight := 110, isUsedProof := fun _ => false }

/-- Environment fixture for the C5 witness. -/
def envC5w : Ether.Env := { chain := chainC5w, nowIso := "" }

/-- The output of the first `checkSync` call of the C5 witness. -/
def rC5w : Ether.Transfer := (Ether.checkSync envC5w tC5).toOption.getD tC5

/-- Witness for C5: on an `InProgress` output, a second `checkSync` call with
the same chain state reproduces the record exactly. -/
theorem c5_checkSync_idempotent_witness :
    Ether.checkSync envC5w rC5w = Except.ok rC5w :=
  (c5_checkSync_idempotent_amended envC5w tC5 rC5w (by rfl)).1 (by rfl)

/-- A successful ether-variant `recover` carries the invocation timestamp as
id and a non-empty receipt trail. -/
theorem recover_ok_fields (env : Ether.Env) (lockTxHash : String) (r : Ether.Transfer)
    (h : Ether.recover env lockTxHash = Except.ok r) :
    r.id = env.nowIso ∧ r.lockReceipts ≠ [] := by
  unfold Ether.recover at h
  cases hrc : env.chain.getTransactionReceipt lockTxHash with
  | none => rw [hrc] at h; exact Except.noConfusion h
  | some receipt =>
    rw [hrc] at h
    dsimp only at h
    cases hev : (env.chain.pastDepositedEvents receipt.blockNumber).find?
        (fun ev => ev.transactionHash = lockTxHash) with
    | none => rw [hev] at h; exact Except.noConfusion h
    | some lockedEvent =>
      rw [hev] at h
      dsimp only at h
      split at h
      · exact Except.noConfusion h
      · cases hp : (jsSplit ':' lockedEvent.recipient)[1]? with
        | none => rw [hp] at h; exact Except.noConfusion h
        | some auroraRecipient =>
          rw [hp] at h
          dsimp only at h
          split at h
          · exact Except.noConfusion h
          · have hspec := checkSync_ok_spec env _ r h
            refine ⟨hspec.1, ?_⟩
            rw [hspec.2.1]
            exact List.cons_ne_nil _ _

/-- C6 (amended): `recover` does not derive the record id from chain or
indexer state — the ether variant assigns the invocation-time ISO timestamp
and the nep141 variant the fresh random id, so two invocations against
identical chain/indexer state agree on `id` only when those sources agree. -/
theorem c6_recover_id_amended :
    (∀ (env : Ether.Env) (lockTxHash : String) (r : Ether.Transfer),
      Ether.recover env lockTxHash = Except.ok r → r.id = env.nowIso) ∧
    (∀ (env : Nep.NEnv) (lockTxHash : String)
      (opts : Option String × Option Nat × Option String) (r : Nep.Transfer),
      Nep.recover env lockTxHash opts = Except.ok r → r.id = env.randomId) := by
  constructor
  · intro env lockTxHash r h
    exact (recover_ok_fields env lockTxHash r h).1
  · intro env lockTxHash opts r h
    unfold Nep.recover at h
    dsimp only at h
    cases hfl : env.actionReceipts.filter (fun rr =>
        rr.methodName = "ft_on_transfer" &&
        Nep.isLowerHex40 (rr.msg.drop (rr.msg.length - 40))) with
    | nil => rw [hfl] at h; exact Except.noConfusion h
    | cons r0 rest =>
      rw [hfl] at h
      dsimp only at h
      injection h with h
      subst h
      rfl

/-- The 40-character recipient used by the C6 fixtures. -/
def hex40a : String := "aaaaaaaaaaaaaaaaaaaaaaaaaaaaaaaaaaaaaaaa"

/-- Chain fixture for C6: one successful lock transaction 0xabc with a
well-formed Deposited event; light client at height 110. -/
def chainC6 : Ether.Chain where
  ethNetwork := "main"
  ethNetworkId := "main"
  getTransactionReceipt := fun hsh =>
    if hsh = "0xabc" then some { blockNumber := 100, transactionHash := "0xabc", status := true }
    else none
  findReplacementTx := fun _ => FinderRes.notYetFound
  getRevertReason := fun _ => Except.error "x"
  syncedHeight := 110
  findProof := fun h => h
  isUsedProof := fun _ => false
  pastDepositedEvents := fun _ =>
    [{ transactionHash := "0xabc", sender := "0xsend", recipient := "aurora:" ++ hex40a,
       amount := "5" }]
  auroraEvmAccount := "aurora"
  blockNumber := 0
  broadcastLock := Except.ok "0xabc"
  pendingTx := fun _ => { fromAddr := "", toAddr := "", nonce := 0, input := "" }

/-- C6 environment invoked at one clock time. -/
def envC6a : Ether.Env := { chain := chainC6, nowIso := "2021-01-01T00:00:00.000Z" }

/-- C6 environment invoked at a later clock time over the same chain state. -/
def envC6b : Ether.Env := { chain := chainC6, nowIso := "2021-01-02T00:00:00.000Z" }

/-- Counterexample for C6: two `recover` invocations against identical
chain/indexer state produce records with different ids, because the id is the
invocation timestamp. -/
theorem c6_recover_id_counterexample :
    envC6a.chain = envC6b.chain ∧
    (Ether.recover envC6a "0xabc").toOption.map Ether.Transfer.id ≠
      (Ether.recover envC6b "0xabc").toOption.map Ether.Transfer.id :=
  ⟨rfl, by decide⟩

/-- The record recovered by the C6 witness invocation. -/
def rC6 : Ether.Transfer := (Ether.recover envC6a "0xabc").toOption.getD Ether.transferDraft

/-- Witness for C6 (amended): the concrete recovered record carries exactly
the invocation timestamp as its id. -/
theorem c6_recover_id_amended_witness : rC6.id = envC6a.nowIso :=
  c6_recover_id_amended.1 envC6a "0xabc" rC6 (by rfl)

/-- C7: every transfer returned by `findAllTransfers` has a claimed amount
equal to the verified on-chain success value of its lock transaction, is
reported `Complete` with no error entries — mismatching candidates are mapped
to `null` and filtered out, never surfaced as errors or failed records. -/
theorem c7_findAllTransfers_verified (env : Nep.NEnv) (p : Nep.FindAllParams)
    (tr : Nep.Transfer) (hmem : tr ∈ Nep.findAllTransfers env p) :
    tr.status = Status.complete ∧ tr.errors = [] ∧
    ∃ h, tr.lockHashes = [h] ∧ tr.amount = Nep.computedSuccessValue env h := by
  unfold Nep.findAllTransfers at hmem
  rw [List.mem_filterMap] at hmem
  obtain ⟨tx, htx, hmap⟩ := hmem
  dsimp only at hmap
  split at hmap
  · exact Option.noConfusion hmap
  · next hne =>
    injection hmap with hmap
    subst hmap
    exact ⟨rfl, rfl, tx.originatedFromTransactionHash, rfl, not_ne_iff.mp hne⟩

/-- Indexer row fixture for C7: a genuine lock call whose success value 7
matches the claimed amount 7. -/
def goodTxC7 : Nep.IndexerTx where
  originatedFromTransactionHash := "goodtx"
  methodName := "ft_transfer_call"
  msg := hex40a
  amount := "7"
  receiverId := "aurora"

/-- Indexer row fixture for C7: a reverted call still present in the indexer
feed — its claimed amount 7 is not matched by any success value. -/
def badTxC7 : Nep.IndexerTx := { goodTxC7 with originatedFromTransactionHash := "badtx" }

/-- Nep141 environment fixture for C7: the indexer returns both candidates;
only the genuine one decodes to a success value equal to its amount. -/
def envC7 : Nep.NEnv where
  hasWindow := false
  urlLocking := none
  urlTxHash := none
  urlErrorCode := none
  lockResult := Except.ok "0xaaa"
  lockNearResult := Except.ok "0xbbb"
  txBlockHashOf := fun _ => "blk"
  blockTimestampIso := fun _ => "2021-01-01T00:00:00.000Z"
  indexerTxs := [goodTxC7, badTxC7]
  actionReceipts := []
  bridgeAuroraEvmAccount := "aurora"
  getMetadata := fun _ => { symbol := "TOK", decimals := 6 }
  successValueOf := fun h => if h = "goodtx" then some "\x227\x22" else none
  freshId := fun _ => "id7"
  randomId := "id7"
  nowIso := ""

/-- Query parameter fixture for C7. -/
def pC7 : Nep.FindAllParams where
  fromBlock := "0"
  toBlock := "latest"
  sender := "alice.near"
  nep141Address := "tok.near"
  optAuroraEvmAccount := none
  optDecimals := none
  optSymbol := none

/-- The single transfer the C7 batch discovery returns. -/
def trC7 : Nep.Transfer := (Nep.findAllTransfers envC7 pC7).headD
  { id := "", startTime := "", status := Status.failed, completedStep := none, amount := "",
    decimals := 0, symbol := "", sourceToken := "", sourceTokenName := "",
    destinationTokenName := "", sender := "", recipient := "", errors := [], lockHashes := [] }

/-- Witness for C7: the surviving discovered transfer is complete, error-free,
and its amount equals the verified success value of its lock transaction. -/
theorem c7_findAllTransfers_verified_witness :
    trC7.status = Status.complete ∧ trC7.errors = [] ∧
    ∃ h, trC7.lockHashes = [h] ∧ trC7.amount = Nep.computedSuccessValue envC7 h :=
  c7_findAllTransfers_verified envC7 pC7 trC7 (by decide)

/-- C8: on a record whose `completedStep` the dispatcher does not recognize
(ether variant: neither None nor Lock; nep141 variant: anything but None),
both `act` and `checkStatus` throw an UnrecognizedStep error to the caller
instead of returning a record — so nothing is written into the record. -/
theorem c8_unrecognized_step :
    (∀ (env : Ether.Env) (t : Ether.Transfer),
      t.completedStep = some Step.sync ∨ t.completedStep = some Step.mint →
      (∃ m, Ether.act env t = Except.error (Err.unrecognizedStep m)) ∧
      (∃ m, Ether.checkStatus env t = Except.error (Err.unrecognizedStep m))) ∧
    (∀ (env : Nep.NEnv) (t : Nep.Transfer) (s : Step),
      t.completedStep = some s →
      (∃ m, Nep.act env t = Except.error (Err.unrecognizedStep m)) ∧
      (∃ m, Nep.checkStatus env t = Except.error (Err.unrecognizedStep m))) := by
  constructor
  · intro env t hstep
    rcases hstep with hstep | hstep
    · constructor
      · refine ⟨"Don\x27t know how to act on transfer: " ++ t.id, ?_⟩
        unfold Ether.act
        rw [hstep]
      · refine ⟨"Don\x27t know how to checkStatus for transfer " ++ t.id, ?_⟩
        unfold Ether.checkStatus
        rw [hstep]
    · constructor
      · refine ⟨"Don\x27t know how to act on transfer: " ++ t.id, ?_⟩
        unfold Ether.act
        rw [hstep]
      · refine ⟨"Don\x27t know how to checkStatus for transfer " ++ t.id, ?_⟩
        unfold Ether.checkStatus
        rw [hstep]
  · intro env t s hstep
    constructor
    · refine ⟨"Don\x27t know how to act on transfer: " ++ t.id, ?_⟩
      unfold Nep.act
      rw [hstep]
    · refine ⟨"Don\x27t know how to checkStatus for transfer " ++ t.id, ?_⟩
      unfold Nep.checkStatus
      rw [hstep]

/-- Chain fixture for the C8 witness. -/
def chainC8 : Ether.Chain where
  ethNetwork := "main"
  ethNetworkId := "main"
  getTransactionReceipt := fun _ => none
  findReplacementTx := fun _ => FinderRes.notYetFound
  getRevertReason := fun _ => Except.error "x"
  syncedHeight := 0
  findProof := fun h => h
  isUsedProof := fun _ => false
  pastDepositedEvents := fun _ => []
  auroraEvmAccount := "aurora"
  blockNumber := 0
  broadcastLock := Except.ok "0xabc"
  pendingTx := fun _ => { fromAddr := "", toAddr := "", nonce := 0, input := "" }

/-- Environment fixture for the C8 witness. -/
def envC8 : Ether.Env := { chain := chainC8, nowIso := "" }

/-- Ether record fixture for the C8 witness: `completedStep = Sync` is not a
step the ether dispatcher recognizes. -/
def tC8 : Ether.Transfer := { Ether.transferDraft with id := "t8", completedStep := some Step.sync }

/-- Nep141 environment fixture for the C8 witness. -/
def envNC8 : Nep.NEnv where
  hasWindow := false
  urlLocking := none
  urlTxHash := none
  urlErrorCode := none
  lockResult := Except.ok "0xaaa"
  lockNearResult := Except.ok "0xbbb"
  txBlockHashOf := fun _ => "blk"
  blockTimestampIso := fun _ => ""
  indexerTxs := []
  actionReceipts := []
  bridgeAuroraEvmAccount := "aurora"
  getMetadata := fun _ => { symbol := "", decimals := 0 }
  successValueOf := fun _ => none
  freshId := fun _ => ""
  randomId := ""
  nowIso := ""

/-- Nep141 record fixture for the C8 witness: `completedStep = Lock` is not a
step the nep141 dispatcher recognizes. -/
def tNC8 : Nep.Transfer where
  id := "t8n"
  startTime := ""
  status := Status.complete
  completedStep := some Step.lock
  amount := "1"
  decimals := 0
  symbol := ""
  sourceToken := "tok.near"
  sourceTokenName := ""
  destinationTokenName := ""
  sender := "alice.near"
  recipient := "0xab"
  errors := []
  lockHashes := ["0xccc"]

/-- Witness for C8: concrete unrecognized-step records make all four
dispatch entry points throw. -/
theorem c8_unrecognized_step_witness :
    (∃ m, Ether.act envC8 tC8 = Except.error (Err.unrecognizedStep m)) ∧
    (∃ m, Ether.checkStatus envC8 tC8 = Except.error (Err.unrecognizedStep m)) ∧
    (∃ m, Nep.act envNC8 tNC8 = Except.error (Err.unrecognizedStep m)) ∧
    (∃ m, Nep.checkStatus envNC8 tNC8 = Except.error (Err.unrecognizedStep m)) := by
  obtain ⟨h1, h2⟩ := c8_unrecognized_step.1 envC8 tC8 (Or.inl rfl)
  obtain ⟨h3, h4⟩ := c8_unrecognized_step.2 envNC8 tNC8 Step.lock rfl
  exact ⟨h1, h2, h3, h4⟩

/-- C9: `checkSync` unconditionally dereferences the last element of
`lockReceipts` — on an empty trail the access faults, and on any non-empty
trail it is in bounds and the call returns a record; the producers that set
`completedStep = Lock` guarantee the precondition: a `checkLock` result that
reached step Lock from step None has a non-empty receipt trail, and so does
every successful `recover` result. -/
theorem c9_checkSync_lockReceipts_safety :
    (∀ (env : Ether.Env) (t : Ether.Transfer), t.lockReceipts = [] →
      Ether.checkSync env t = Except.error Err.nilAccess) ∧
    (∀ (env : Ether.Env) (t : Ether.Transfer), t.lockReceipts ≠ [] →
      ∃ r, Ether.checkSync env t = Except.ok r) ∧
    (∀ (env : Ether.Env) (t r : Ether.Transfer), Ether.checkLock env t = Except.ok r →
      t.completedStep = none → r.completedStep = some Step.lock → r.lockReceipts ≠ []) ∧
    (∀ (env : Ether.Env) (lockTxHash : String) (r : Ether.Transfer),
      Ether.recover env lockTxHash = Except.ok r → r.lockReceipts ≠ []) := by
  refine ⟨?_, ?_, ?_, ?_⟩
  · intro env t ht
    unfold Ether.checkSync
    rw [ht]
    rfl
  · intro env t ht
    have hl := List.getLast?_eq_getLast t.lockReceipts ht
    unfold Ether.checkSync
    rw [hl]
    dsimp only
    split
    · split
      · exact ⟨_, rfl⟩
      · exact ⟨_, rfl⟩
    · exact ⟨_, rfl⟩
  · intro env t r h hnone hlock
    rcases (checkLock_ok_spec env t r h).2 with hsame | ⟨_, hne⟩
    · rw [hnone] at hsame
      exact Option.noConfusion (hsame.symm.trans hlock)
    · exact hne
  · intro env lockTxHash r h
    exact (recover_ok_fields env lockTxHash r h).2

/-- Chain fixture for the C9 witness: lock receipt available and a matching
Deposited event, so both `checkLock` and `recover` succeed. -/
def chainC9 : Ether.Chain where
  ethNetwork := "main"
  ethNetworkId := "main"
  getTransactionReceipt := fun hsh =>
    if hsh = "0xabc" then some { blockNumber := 100, transactionHash := "0xabc", status := true }
    else none
  findReplacementTx := fun _ => FinderRes.notYetFound
  getRevertReason := fun _ => Except.error "x"
  syncedHeight := 110
  findProof := fun h => h
  isUsedProof := fun _ => false
  pastDepositedEvents := fun _ =>
    [{ transactionHash := "0xabc", sender := "0xsend", recipient := "aurora:" ++ hex40a,
       amount := "5" }]
  auroraEvmAccount := "aurora"
  blockNumber := 0
  broadcastLock := Except.ok "0xabc"
  pendingTx := fun _ => { fromAddr := "", toAddr := "", nonce := 0, input := "" }

/-- Environment fixture for the C9 witness. -/
def envC9 : Ether.Env := { chain := chainC9, nowIso := "2021-03-01T00:00:00.000Z" }

/-- Record fixture for the C9 witness with a non-empty receipt trail. -/
def tC9 : Ether.Transfer := { Ether.transferDraft with
  id := "t9"
  completedStep := some Step.lock
  status := Status.inProgress
  lockHashes := ["0xabc"]
  lockReceipts := [{ blockNumber := 100, transactionHash := "0xabc", status := true }] }

/-- Record fixture for the C9 witness at step None, before its receipt is
found. -/
def tC9c : Ether.Transfer := { Ether.transferDraft with
  id := "t9c"
  status := Status.inProgress
  lockHashes := ["0xabc"] }

/-- The record `checkLock` produces in the C9 witness. -/
def rC9c : Ether.Transfer := (Ether.checkLock envC9 tC9c).toOption.getD tC9c

/-- The record `recover` produces in the C9 witness. -/
def rC9r : Ether.Transfer := (Ether.recover envC9 "0xabc").toOption.getD tC9c

/-- Witness for C9: the empty trail faults, the non-empty trail succeeds, and
both producers hand `checkSync` a non-empty trail. -/
theorem c9_checkSync_lockReceipts_safety_witness :
    Ether.checkSync envC9 Ether.transferDraft = Except.error Err.nilAccess ∧
    (∃ r, Ether.checkSync envC9 tC9 = Except.ok r) ∧
    rC9c.lockReceipts ≠ [] ∧
    rC9r.lockReceipts ≠ [] :=
  ⟨c9_checkSync_lockReceipts_safety.1 envC9 Ether.transferDraft rfl,
    c9_checkSync_lockReceipts_safety.2.1 envC9 tC9 (by decide),
    c9_checkSync_lockReceipts_safety.2.2.1 envC9 tC9c rC9c (by rfl) rfl (by rfl),
    c9_checkSync_lockReceipts_safety.2.2.2 envC9 "0xabc" rC9r (by rfl)⟩

/-- C10: when `checkSync` completes a transfer because the anti-replay
registry reports the proof already used, the result is `Complete` at step
`Mint` with `Transfer already finalized.` appended to `errors`, while
`mintHashes` is left untouched — empty in, empty out, so the relayer's mint
transaction hash is never recorded even though an error entry exists. -/
theorem c10_checkSync_relayer_completion (env : Ether.Env) (t : Ether.Transfer)
    (lr : Receipt) (hlast : t.lockReceipts.getLast? = some lr)
    (hconf : max 0 (env.chain.syncedHeight - lr.blockNumber) > t.neededConfirmations)
    (hused : env.chain.isUsedProof (env.chain.findProof lr.transactionHash) = true) :
    ∃ r, Ether.checkSync env t = Except.ok r ∧
      r.status = Status.complete ∧
      r.completedStep = some Step.mint ∧
      r.errors = t.errors ++ ["Transfer already finalized."] ∧
      r.mintHashes = t.mintHashes ∧
      (t.mintHashes = [] → r.mintHashes = []) := by
  refine ⟨{ t with
      completedStep := some Step.mint
      completedConfirmations := max 0 (env.chain.syncedHeight - lr.blockNumber)
      status := Status.complete
      errors := t.errors ++ ["Transfer already finalized."] }, ?_, rfl, rfl, rfl, rfl,
    fun hh => hh⟩
  unfold Ether.checkSync
  rw [hlast]
  dsimp only
  rw [if_pos hconf, if_pos hused]

/-- Chain fixture for the C10 witness: synced past the needed confirmations
and the proof already used by a relayer. -/
def chainC10 : Ether.Chain where
  ethNetwork := "main"
  ethNetworkId := "main"
  getTransactionReceipt := fun _ => none
  findReplacementTx := fun _ => FinderRes.notYetFound
  getRevertReason := fun _ => Except.error "x"
  syncedHeight := 121
  findProof := fun h => h
  isUsedProof := fun _ => true
  pastDepositedEvents := fun _ => []
  auroraEvmAccount := "aurora"
  blockNumber := 0
  broadcastLock := Except.ok "0xabc"
  pendingTx := fun _ => { fromAddr := "", toAddr := "", nonce := 0, input := "" }

/-- Environment fixture for the C10 witness. -/
def envC10 : Ether.Env := { chain := chainC10, nowIso := "" }

/-- Record fixture for the C10 witness: empty `mintHashes`, lock receipt at
height 100. -/
def tC10 : Ether.Transfer := { Ether.transferDraft with
  id := "t10"
  completedStep := some Step.lock
  status := Status.inProgress
  lockHashes := ["0xabc"]
  lockReceipts := [{ blockNumber := 100, transactionHash := "0xabc", status := true }] }

/-- Witness for C10: the concrete relayer-completed record is Complete at
Mint, carries the appended error entry and still has empty `mintHashes`. -/
theorem c10_checkSync_relayer_completion_witness :
    ∃ r, Ether.checkSync envC10 tC10 = Except.ok r ∧
      r.status = Status.complete ∧
      r.completedStep = some Step.mint ∧
      r.errors = tC10.errors ++ ["Transfer already finalized."] ∧
      r.mintHashes = tC10.mintHashes ∧
      (tC10.mintHashes = [] → r.mintHashes = []) :=
  c10_checkSync_relayer_completion envC10 tC10
    { blockNumber := 100, transactionHash := "0xabc", status := true } rfl (by decide) rfl

end RainbowBridge
